import Mathlib

/-!
Shallow embedding of the Health-Insights-Agent chat core, translated from
`src/agent/chat_agent.py` and `src/services/ai_service.py` (plus the history
handling in `src/main.py`).  External capabilities — the text splitter, the
FAISS index construction, the embedding-based retriever and the hosted LLM
completion endpoint — are opaque in the source and are modelled as oracle
fields of the `ChatAgent` structure; fallible SDK calls become `Except`
results.  Streamlit session state becomes an explicit `SessionState` record,
and calls to `initialize_vector_store` are additionally recorded in a `builds`
trace so that cache/rebuild behaviour is observable.
-/

/-- Python `str.strip()` whitespace class (ASCII part: space, tab, newline,
carriage return, vertical tab, form feed). -/
def pyIsSpace (c : Char) : Bool :=
  c == ' ' || c == '\t' || c == '\n' || c == '\r' || c == '\x0b' || c == '\x0c'

/-- Python `s.strip()`: remove leading and trailing whitespace. -/
def pyStrip (s : String) : String :=
  String.mk (((s.toList.dropWhile pyIsSpace).reverse.dropWhile pyIsSpace).reverse)

/-- Python `s[:n]` for a nonnegative bound: the first `n` characters. -/
def pyTake (s : String) (n : Nat) : String :=
  String.mk (s.toList.take n)

/-- Python `s[a:b]` for nonnegative bounds. -/
def pySlice (s : String) (a b : Nat) : String :=
  String.mk ((s.toList.drop a).take (b - a))

/-- Python `l[-n:]`: the last `n` elements (the whole list when shorter). -/
def lastN (n : Nat) (l : List α) : List α :=
  l.drop (l.length - n)

/-- Index of the first occurrence of `pat` in `l` (Python `str.find` on the
underlying character lists), `none` when `pat` does not occur. -/
def findSub (l pat : List Char) : Option Nat :=
  match l with
  | [] => if pat.isPrefixOf ([] : List Char) then some 0 else none
  | c :: t =>
    if pat.isPrefixOf (c :: t) then some 0
    else (findSub t pat).map (fun n => n + 1)

/-- Python `s.find(pat)`: first index of `pat` in `s`, `-1` when absent. -/
def pyFind (s pat : String) : Int :=
  match findSub s.toList pat.toList with
  | some n => (n : Int)
  | none => -1

/-- Python `pat in s` substring test. -/
def strContains (s pat : String) : Bool :=
  (findSub s.toList pat.toList).isSome

/-- A chat message as passed to the Groq API and stored in session history:
a `{"role": ..., "content": ...}` dict. -/
structure ChatMessage where
  role : String
  content : String
deriving DecidableEq, Repr

/-- A FAISS vector store, identified with the chunk list it was built from
(`FAISS.from_texts(texts, embeddings)`); similarity search over it is an
opaque oracle. -/
abbrev VectorStore := List String

/-- The placeholder substituted by `ChatAgent.initialize_vector_store` for
empty input, and the sentinel checked by `ChatAgent.get_response`. -/
def noReportPlaceholder : String := "No report context available."

/-- `ChatAgent` (`src/agent/chat_agent.py`): the deterministic control flow is
embedded below; the externally-owned capabilities it wraps are oracle fields:
`splitText` is `RecursiveCharacterTextSplitter.split_text`, `fromTexts` is
`FAISS.from_texts` (which may raise), `contextualizeLLM` and `complete` are the
two Groq completion calls (which may raise), and `retrieve` is
`as_retriever(search_kwargs={"k": 3}).get_relevant_documents`. -/
structure ChatAgent where
  splitText : String → List String
  fromTexts : List String → Except String VectorStore
  contextualizeLLM : String → Except Unit String
  retrieve : VectorStore → String → Except Unit (List String)
  complete : List ChatMessage → Except String String

/-- The text actually chunked by `initialize_vector_store`: empty or blank
input is replaced by the placeholder (`chat_agent.py` lines 20-22). -/
def effective_text (text_content : String) : String :=
  if text_content = "" ∨ pyStrip text_content = "" then noReportPlaceholder
  else text_content

/-- The chunk list passed to `FAISS.from_texts` by `initialize_vector_store`:
the splitter output, or the whole text when the splitter returns an empty list
(`chat_agent.py` lines 24-27). -/
def ChatAgent.initialize_chunks (a : ChatAgent) (text_content : String) : List String :=
  let t := effective_text text_content
  let texts := a.splitText t
  if texts = [] then [t] else texts

/-- `ChatAgent.initialize_vector_store` (`chat_agent.py` lines 18-30).
Exceptions raised by index construction propagate to the caller. -/
def ChatAgent.initialize_vector_store (a : ChatAgent) (text_content : String) :
    Except String VectorStore :=
  a.fromTexts (a.initialize_chunks text_content)

/-- The reformulation prompt built by `_contextualize_query` from the last 4
history entries (`chat_agent.py` lines 44-60). -/
def contextualizePrompt (query : String) (chat_history : List ChatMessage) : String :=
  let recent_history := lastN 4 chat_history
  let history_text := String.intercalate "\n"
    (recent_history.map (fun m =>
      (if m.role = "user" then "User" else "Assistant") ++ ": " ++ m.content))
  "Given a chat history and the latest user question, formulate a standalone question which can be understood without the chat history. Do NOT answer the question, just reformulate it if needed and otherwise return it as is.\n\nChat History:\n"
    ++ history_text ++ "\n\nLatest User Question: " ++ query
    ++ "\n\nStandalone Question:"

/-- `ChatAgent._contextualize_query` (`chat_agent.py` lines 39-77).  Returns
the reformulated query together with the list of LLM prompts issued, so that
"no LLM call happens" is observable.  On an LLM failure the original query is
returned. -/
def ChatAgent.contextualize_query (a : ChatAgent) (query : String)
    (chat_history : List ChatMessage) : String × List String :=
  if chat_history = [] then (query, [])
  else
    let p := contextualizePrompt query chat_history
    match a.contextualizeLLM p with
    | Except.ok r => (pyStrip r, [p])
    | Except.error _ => (query, [p])

/-- The QA system prompt of `get_response` (`chat_agent.py` lines 101-106). -/
def qaSystemPrompt : String :=
  "You are an assistant for question-answering tasks. Use the following pieces of retrieved context to answer the question. If you don't know the answer, just say that you don't know. Use three sentences maximum and keep the answer concise."

/-- The user message assembled by `get_response` (`chat_agent.py` lines
118-127): a "Context:" section when the retrieved context is non-blank and not
the placeholder sentinel, otherwise the history-only phrasing. -/
def buildUserMessage (context query : String) : String :=
  if context ≠ "" ∧ pyStrip context ≠ "" ∧ pyStrip context ≠ noReportPlaceholder then
    "Context:\n" ++ context ++ "\n\nQuestion: " ++ query
  else
    "Question: " ++ query
      ++ "\n\nNote: No report context is available. Please answer based on the chat history."

/-- Everything `ChatAgent.get_response` computes: the contextualized query,
the retrieved context after the sentinel check, the assembled user message,
the full message sequence sent to the LLM, and the returned answer. -/
structure RAGResult where
  contextualized : String
  context : String
  userMessage : String
  messages : List ChatMessage
  answer : String
deriving DecidableEq, Repr

/-- `ChatAgent.get_response` (`chat_agent.py` lines 79-140).  `chat_history`
defaults to `None`, normalized to the empty list.  Retrieval failure degrades
to empty context; retrieved context strip-equal to the placeholder sentinel is
blanked; completion failure is returned as an inline error string. -/
def ChatAgent.get_response (a : ChatAgent) (query : String) (vectorstore : VectorStore)
    (chat_history : Option (List ChatMessage)) : RAGResult :=
  let hist := chat_history.getD []
  let cq := (a.contextualize_query query hist).1
  let context :=
    match a.retrieve vectorstore cq with
    | Except.ok docs =>
        let c := String.intercalate "\n\n" docs
        if pyStrip c = noReportPlaceholder then "" else c
    | Except.error _ => ""
  let user_message := buildUserMessage context query
  let messages :=
    ChatMessage.mk "system" qaSystemPrompt
      :: ((if hist = [] then [] else lastN 6 hist) ++ [ChatMessage.mk "user" user_message])
  let answer :=
    match a.complete messages with
    | Except.ok r => r
    | Except.error e => "Error generating response: " ++ e
  ⟨cq, context, user_message, messages, answer⟩

/-! ### The orchestrator: `src/services/ai_service.py` -/

/-- The start marker of the sentinel text protocol. -/
def reportStart : String := "__REPORT_TEXT__"

/-- The start marker followed by the newline, as searched for by the
extraction code. -/
def reportStartNl : String := "__REPORT_TEXT__\n"

/-- The end marker (with its leading newline) of the sentinel text protocol. -/
def reportEnd : String := "\n__END_REPORT_TEXT__"

/-- Extraction of the report text from one system message body
(`ai_service.py` lines 82-87): substring search for the two literal markers;
succeeds only when the start marker (with newline) is present and the end
marker starts strictly after it. -/
def extractReport (content : String) : Option String :=
  let start_idx : Int := pyFind content reportStartNl + (reportStartNl.length : Int)
  let end_idx : Int := pyFind content reportEnd
  if start_idx > (reportStartNl.length : Int) - 1 ∧ end_idx > start_idx then
    some (pySlice content start_idx.toNat end_idx.toNat)
  else none

/-- The history scan for a sentinel-delimited system message (`ai_service.py`
lines 77-87): the first system message containing the start marker from which
extraction succeeds wins; messages where extraction fails are skipped. -/
def scanSystem : List ChatMessage → Option String
  | [] => none
  | m :: rest =>
    if m.role = "system" ∧ strContains m.content reportStart then
      match extractReport m.content with
      | some t => some t
      | none => scanSystem rest
    else scanSystem rest

/-- The scan (over the reversed history) for the most recent assistant
message whose content is longer than 100 characters (`ai_service.py` lines
91-96). -/
def findRecentLongAssistant : List ChatMessage → Option ChatMessage
  | [] => none
  | m :: rest =>
    if m.role = "assistant" ∧ m.content.length > 100 then some m
    else findRecentLongAssistant rest

/-- The context-recovery logic of `get_chat_response` (`ai_service.py` lines
74-96): when the passed context is empty and the history is non-empty, first
scan for a sentinel-delimited system message; if the context is still empty,
take the first 5000 characters of the most recent long assistant message. -/
def recoverContext (context_text : String) (chat_history : List ChatMessage) : String :=
  if context_text = "" ∧ chat_history ≠ [] then
    let c1 := (scanSystem chat_history).getD context_text
    if c1 = "" then
      match findRecentLongAssistant chat_history.reverse with
      | some m => pyTake m.content 5000
      | none => c1
    else c1
  else context_text

/-- The placeholder `get_chat_response` substitutes when the context is still
empty after recovery (`ai_service.py` line 106). -/
def aiPlaceholder : String := "No report context available. Relying on chat history only."

/-- The context text `get_chat_response` actually indexes: the recovered
context, or the orchestrator's placeholder when recovery left it empty
(`ai_service.py` lines 103-106). -/
def effectiveContext (context_text : String) (chat_history : List ChatMessage) : String :=
  let c := recoverContext context_text chat_history
  if c = "" then aiPlaceholder else c

/-- The canned default error when no stored initialization error exists
(`ai_service.py` lines 68-71). -/
def defaultChatUnavailable : String :=
  "Chat functionality is currently unavailable. Please check your GROQ_API_KEY configuration in .streamlit/secrets.toml"

/-- The Streamlit session state slots touched by `get_chat_response`:
the lazily-initialized chat agent (or `none` on initialization failure), the
stored initialization error, the cached vector store and its length key. -/
structure SessionState where
  chat_agent : Option ChatAgent
  chat_agent_error : Option String
  vector_store : Option VectorStore
  vector_store_key : Option Nat

/-- The observable outcome of one `get_chat_response` call: the returned
string, the updated session state, and the trace of texts passed to
`initialize_vector_store` (empty exactly when no rebuild was attempted). -/
structure ChatCallResult where
  result : String
  state : SessionState
  builds : List String

/-- `get_chat_response` (`ai_service.py` lines 62-135).  Returns a canned
error when the agent failed to initialize; otherwise recovers the context,
rebuilds the cached vector store when absent or when the cached key differs
from the context length (on failure retrying once with the fixed placeholder
and key 0, and as a last resort returning an error string), then delegates to
`ChatAgent.get_response`. -/
def get_chat_response (st : SessionState) (query context_text : String)
    (chat_history : List ChatMessage) : ChatCallResult :=
  match st.chat_agent with
  | none =>
    ⟨"Error: " ++ st.chat_agent_error.getD defaultChatUnavailable, st, []⟩
  | some agent =>
    let ctx := effectiveContext context_text chat_history
    if st.vector_store = none ∨ st.vector_store_key ≠ some ctx.length then
      match agent.initialize_vector_store ctx with
      | Except.ok vs =>
        let st2 := { st with vector_store := some vs, vector_store_key := some ctx.length }
        ⟨(agent.get_response query vs (some chat_history)).answer, st2, [ctx]⟩
      | Except.error e =>
        match agent.initialize_vector_store noReportPlaceholder with
        | Except.ok vs =>
          let st2 := { st with vector_store := some vs, vector_store_key := some 0 }
          ⟨(agent.get_response query vs (some chat_history)).answer, st2,
            [ctx, noReportPlaceholder]⟩
        | Except.error _ =>
          ⟨"Error: Could not initialize vector store. " ++ e, st,
            [ctx, noReportPlaceholder]⟩
    else
      ⟨(agent.get_response query (st.vector_store.getD []) (some chat_history)).answer,
        st, []⟩

/-! ### Helper lemmas -/

lemma string_toList_ne_nil (s : String) (h : s ≠ "") : s.toList ≠ [] := by
  intro hn
  apply h
  cases s with
  | mk d =>
    have hd : d = [] := hn
    rw [hd]

lemma string_length_pos (s : String) (h : s ≠ "") : 0 < s.length := by
  cases s with
  | mk d =>
    cases d with
    | nil => exact absurd rfl h
    | cons c t => simp [String.length_mk]

/-- When the passed context is non-empty, recovery leaves it unchanged. -/
lemma recoverContext_of_ne (t : String) (hist : List ChatMessage) (ht : t ≠ "") :
    recoverContext t hist = t := by
  unfold recoverContext
  rw [if_neg]
  intro hc
  exact ht hc.1

/-- When the passed context is non-empty, the indexed text is exactly it. -/
lemma effectiveContext_of_ne (t : String) (hist : List ChatMessage) (ht : t ≠ "") :
    effectiveContext t hist = t := by
  unfold effectiveContext
  rw [recoverContext_of_ne t hist ht, if_neg ht]

/-- When recovery produced a non-empty context, that recovered text is
exactly what gets indexed (no placeholder substitution). -/
lemma effectiveContext_of_recovered (t : String) (hist : List ChatMessage)
    (h : recoverContext t hist ≠ "") :
    effectiveContext t hist = recoverContext t hist := by
  unfold effectiveContext
  rw [if_neg h]

/-- The indexed context text is never empty: the placeholder is substituted. -/
lemma effectiveContext_ne_empty (t : String) (hist : List ChatMessage) :
    effectiveContext t hist ≠ "" := by
  unfold effectiveContext
  by_cases h : recoverContext t hist = ""
  · rw [if_pos h]
    decide
  · rw [if_neg h]
    exact h

/-! ### Concrete oracle instantiations used by witnesses -/

/-- An agent whose external services all behave: the splitter returns the text
as one chunk (as `RecursiveCharacterTextSplitter` does on short inputs), index
construction succeeds, retrieval returns the stored chunks (FAISS top-3 on a
single-chunk store), and completion succeeds. -/
def sampleAgent : ChatAgent where
  splitText := fun s => [s]
  fromTexts := fun ts => Except.ok ts
  contextualizeLLM := fun _ => Except.error ()
  retrieve := fun vs _ => Except.ok vs
  complete := fun _ => Except.ok "Sample answer."

/-- An agent whose final completion call always raises. -/
def failCompleteAgent : ChatAgent :=
  { sampleAgent with complete := fun _ => Except.error "boom" }

/-- An agent whose index construction always raises. -/
def brokenIndexAgent : ChatAgent :=
  { sampleAgent with fromTexts := fun _ => Except.error "embedding service down" }

/-- An agent whose index construction succeeds only on the placeholder chunk
list, modelling a rebuild failure whose placeholder retry succeeds. -/
def fallbackOnlyAgent : ChatAgent :=
  { sampleAgent with
    fromTexts := fun ts =>
      if ts = [noReportPlaceholder] then Except.ok ts
      else Except.error "index build failed" }

/-- A session state whose chat agent failed to initialize. -/
def missingAgentState : SessionState :=
  ⟨none, some "GROQ_API_KEY not found in secrets. Please add it to .streamlit/secrets.toml",
    none, none⟩

/-! ### Claims -/

/-- C4: for every query, `_contextualize_query` called with an empty chat
history returns the query unchanged and issues no LLM call (the prompt trace
is empty, and the result does not depend on the LLM oracle at all, since the
theorem holds for every agent). -/
theorem hia_C4_contextualize_empty_history (a : ChatAgent) (query : String) :
    a.contextualize_query query [] = (query, []) := rfl

/-- C5: for every input text, `initialize_vector_store` passes a non-empty
chunk sequence to index construction; empty or blank input is replaced by the
placeholder string, and when the splitter returns an empty list the whole text
is used as the single chunk. -/
theorem hia_C5_chunks_nonempty (a : ChatAgent) (text : String) :
    a.initialize_chunks text ≠ [] ∧
    (pyStrip text = "" → effective_text text = noReportPlaceholder) ∧
    (a.splitText (effective_text text) = [] →
      a.initialize_chunks text = [effective_text text]) := by
  refine ⟨?_, ?_, ?_⟩
  · unfold ChatAgent.initialize_chunks
    by_cases h : a.splitText (effective_text text) = []
    · simp [h]
    · simp [h]
  · intro h
    unfold effective_text
    rw [if_pos (Or.inr h)]
  · intro h
    unfold ChatAgent.initialize_chunks
    simp [h]

theorem hia_C5_witness :
    sampleAgent.initialize_chunks "" ≠ [] ∧ effective_text "" = noReportPlaceholder :=
  ⟨(hia_C5_chunks_nonempty sampleAgent "").1,
   (hia_C5_chunks_nonempty sampleAgent "").2.1 (by decide)⟩

/-- C10: `get_response` with `chat_history = None` behaves identically to an
empty list: the results coincide, the assembled message sequence is exactly
the system prompt followed by the user message, and contextualization returns
the query unchanged. -/
theorem hia_C10_none_history (a : ChatAgent) (query : String) (vs : VectorStore) :
    a.get_response query vs none = a.get_response query vs (some []) ∧
    (a.get_response query vs none).messages =
      [ChatMessage.mk "system" qaSystemPrompt,
       ChatMessage.mk "user" (a.get_response query vs none).userMessage] ∧
    (a.get_response query vs none).contextualized = query :=
  ⟨rfl, rfl, rfl⟩

/-- C6: if the final completion call inside `get_response` raises, the
returned answer is a string containing "Error generating response". -/
theorem hia_C6_completion_error (a : ChatAgent) (query : String) (vs : VectorStore)
    (chat_history : Option (List ChatMessage)) (e : String)
    (h : a.complete (a.get_response query vs chat_history).messages = Except.error e) :
    ∃ s, (a.get_response query vs chat_history).answer
      = "Error generating response" ++ s := by
  refine ⟨": " ++ e, ?_⟩
  have hans : (a.get_response query vs chat_history).answer =
      match a.complete (a.get_response query vs chat_history).messages with
      | Except.ok r => r
      | Except.error err => "Error generating response: " ++ err := rfl
  rw [hans, h]
  show "Error generating response: " ++ e = "Error generating response" ++ (": " ++ e)
  rw [show ("Error generating response: " : String) = "Error generating response" ++ ": " from rfl]
  exact String.append_assoc _ _ _

theorem hia_C6_witness :
    ∃ s, (failCompleteAgent.get_response "q" [] none).answer
      = "Error generating response" ++ s :=
  hia_C6_completion_error failCompleteAgent "q" [] none "boom" rfl

/-- C8: when the chat agent failed to initialize, `get_chat_response` returns
"Error: " followed by the stored error message (or the canned default),
leaves the session state untouched, and never calls index construction. -/
theorem hia_C8_agent_missing (st : SessionState) (query context_text : String)
    (chat_history : List ChatMessage) (h : st.chat_agent = none) :
    (get_chat_response st query context_text chat_history).result
      = "Error: " ++ st.chat_agent_error.getD defaultChatUnavailable ∧
    (get_chat_response st query context_text chat_history).state = st ∧
    (get_chat_response st query context_text chat_history).builds = [] := by
  rcases st with ⟨ca, ce, v, k⟩
  cases ca with
  | none => exact ⟨rfl, rfl, rfl⟩
  | some a => exact Option.noConfusion h

theorem hia_C8_witness :
    (get_chat_response missingAgentState "q" "ctx" []).result
      = "Error: " ++ missingAgentState.chat_agent_error.getD defaultChatUnavailable ∧
    (get_chat_response missingAgentState "q" "ctx" []).state = missingAgentState ∧
    (get_chat_response missingAgentState "q" "ctx" []).builds = [] :=
  hia_C8_agent_missing missingAgentState "q" "ctx" [] rfl

/-- C1 (failing input): when the vector store was built by
`get_chat_response` from its own empty-context placeholder text, retrieval
returns that placeholder, which does not strip-equal the sentinel checked by
`get_response`; the assembled user message therefore carries a "Context:"
section instead of the history-only phrasing, contradicting the claim and the
code's own comments ("If no context, we'll use chat history only"). -/
theorem hia_C1_placeholder_store_mismatch :
    sampleAgent.initialize_vector_store aiPlaceholder = Except.ok [aiPlaceholder] ∧
    (get_chat_response ⟨some sampleAgent, none, none, none⟩
        "What does my report say?" "" []).builds = [aiPlaceholder] ∧
    (sampleAgent.get_response "What does my report say?" [aiPlaceholder]
        (some [])).userMessage
      = "Context:\n" ++ aiPlaceholder ++ "\n\nQuestion: What does my report say?" ∧
    (sampleAgent.get_response "What does my report say?" [aiPlaceholder]
        (some [])).userMessage
      ≠ "Question: What does my report say?\n\nNote: No report context is available. Please answer based on the chat history." := by
  refine ⟨rfl, ?_, ?_, ?_⟩ <;> decide

/-- Unfolding of `get_chat_response` on a state whose agent is present. -/
lemma get_chat_response_some (agent : ChatAgent) (ce : Option String)
    (v : Option VectorStore) (k : Option Nat) (q t : String) (hist : List ChatMessage) :
    get_chat_response ⟨some agent, ce, v, k⟩ q t hist =
      (if v = none ∨ k ≠ some (effectiveContext t hist).length then
        match agent.initialize_vector_store (effectiveContext t hist) with
        | Except.ok vs =>
          ⟨(agent.get_response q vs (some hist)).answer,
            ⟨some agent, ce, some vs, some (effectiveContext t hist).length⟩,
            [effectiveContext t hist]⟩
        | Except.error e =>
          match agent.initialize_vector_store noReportPlaceholder with
          | Except.ok vs =>
            ⟨(agent.get_response q vs (some hist)).answer,
              ⟨some agent, ce, some vs, some 0⟩,
              [effectiveContext t hist, noReportPlaceholder]⟩
          | Except.error _ =>
            ⟨"Error: Could not initialize vector store. " ++ e,
              ⟨some agent, ce, v, k⟩,
              [effectiveContext t hist, noReportPlaceholder]⟩
      else
        ⟨(agent.get_response q (v.getD []) (some hist)).answer,
          ⟨some agent, ce, v, k⟩, []⟩) := rfl

/-- After a call on a state with a working agent, provided index construction
succeeds on the context the call actually indexes (a rebuild, when attempted,
is attempted exactly on that text), the session state caches a vector store
under the length of the indexed context text. -/
lemma get_chat_response_state (st : SessionState) (agent : ChatAgent)
    (q t : String) (hist : List ChatMessage)
    (hag : st.chat_agent = some agent)
    (hok : ∃ v, agent.initialize_vector_store (effectiveContext t hist) = Except.ok v) :
    (get_chat_response st q t hist).state.chat_agent = some agent ∧
    (get_chat_response st q t hist).state.vector_store ≠ none ∧
    (get_chat_response st q t hist).state.vector_store_key
      = some (effectiveContext t hist).length := by
  rcases st with ⟨ca, ce, v, k⟩
  cases ca with
  | none => exact Option.noConfusion hag
  | some a =>
    have ha : a = agent := Option.some.inj hag
    subst a
    rw [get_chat_response_some]
    by_cases hcond : v = none ∨ k ≠ some (effectiveContext t hist).length
    · rw [if_pos hcond]
      obtain ⟨w, hw⟩ := hok
      rw [hw]
      exact ⟨rfl, by simp, rfl⟩
    · rw [if_neg hcond]
      push_neg at hcond
      exact ⟨rfl, hcond.1, hcond.2⟩

/-- When a vector store is cached under exactly the current context length,
a call attempts no rebuild. -/
lemma no_rebuild_of_cached (st : SessionState) (agent : ChatAgent)
    (q t : String) (hist : List ChatMessage)
    (hag : st.chat_agent = some agent)
    (hv : st.vector_store ≠ none)
    (hk : st.vector_store_key = some (effectiveContext t hist).length) :
    (get_chat_response st q t hist).builds = [] := by
  rcases st with ⟨ca, ce, v, k⟩
  cases ca with
  | none => exact Option.noConfusion hag
  | some a =>
    have ha : a = agent := Option.some.inj hag
    subst a
    rw [get_chat_response_some, if_neg]
    intro hc
    rcases hc with hc | hc
    · exact hv hc
    · exact hc hk

/-- C3 (counterexample): two consecutive calls with the same non-empty,
recovery-free context "x" (identical lengths), on an agent whose index
construction always fails: the first call caches nothing, so the second call
still attempts a rebuild, refuting "the second call performs no rebuild". -/
theorem hia_C3_counterexample :
    (get_chat_response
        (get_chat_response ⟨some brokenIndexAgent, none, none, none⟩ "q1" "x" []).state
        "q2" "x" []).builds ≠ [] := by decide

/-- C3 (amended): a rebuild is attempted iff no vector store is cached or the
cached key differs from the current indexed context length; and for two
consecutive calls whose post-recovery context texts (recovered from the
passed context or from the history) are non-empty and have identical length,
the second call attempts no rebuild, provided the first call's index
construction on the context it actually indexes succeeds. -/
theorem hia_C3_amended :
    (∀ (st : SessionState) (agent : ChatAgent) (q t : String) (hist : List ChatMessage),
      st.chat_agent = some agent →
      ((get_chat_response st q t hist).builds ≠ [] ↔
        st.vector_store = none ∨
          st.vector_store_key ≠ some (effectiveContext t hist).length)) ∧
    (∀ (st : SessionState) (agent : ChatAgent) (q1 t1 : String) (h1 : List ChatMessage)
      (q2 t2 : String) (h2 : List ChatMessage),
      st.chat_agent = some agent →
      recoverContext t1 h1 ≠ "" → recoverContext t2 h2 ≠ "" →
      (recoverContext t1 h1).length = (recoverContext t2 h2).length →
      (∃ v, agent.initialize_vector_store (effectiveContext t1 h1) = Except.ok v) →
      (get_chat_response (get_chat_response st q1 t1 h1).state q2 t2 h2).builds = []) := by
  constructor
  · intro st agent q t hist hag
    rcases st with ⟨ca, ce, v, k⟩
    cases ca with
    | none => exact Option.noConfusion hag
    | some a =>
      have ha : a = agent := Option.some.inj hag
      subst a
      rw [get_chat_response_some]
      by_cases hcond : v = none ∨ k ≠ some (effectiveContext t hist).length
      · rw [if_pos hcond]
        refine iff_of_true ?_ hcond
        cases hini : agent.initialize_vector_store (effectiveContext t hist) with
        | ok w => simp
        | error e =>
          cases hini2 : agent.initialize_vector_store noReportPlaceholder with
          | ok w => simp
          | error e2 => simp
      · rw [if_neg hcond]
        exact iff_of_false (by simp) hcond
  · intro st agent q1 t1 h1 q2 t2 h2 hag hrec1 hrec2 hlen hok
    obtain ⟨hag1, hv1, hk1⟩ := get_chat_response_state st agent q1 t1 h1 hag hok
    rw [effectiveContext_of_recovered t1 h1 hrec1] at hk1
    apply no_rebuild_of_cached _ agent _ _ _ hag1 hv1
    rw [effectiveContext_of_recovered t2 h2 hrec2, ← hlen]
    exact hk1

/-- A history whose system message carries a report text between the sentinel
markers, so that an empty passed context is recovered from the history. -/
def sentinelHistory : List ChatMessage :=
  [⟨"system", "__REPORT_TEXT__\nBP 140/90\n__END_REPORT_TEXT__"⟩]

theorem hia_C3_witness :
    (get_chat_response ⟨some sampleAgent, none, none, none⟩ "q" "x" []).builds ≠ [] ∧
    (get_chat_response
        (get_chat_response ⟨some sampleAgent, none, none, none⟩ "q1" "" sentinelHistory).state
        "q2" "" sentinelHistory).builds = [] :=
  ⟨(hia_C3_amended.1 ⟨some sampleAgent, none, none, none⟩ sampleAgent "q" "x" [] rfl).mpr
      (Or.inl rfl),
   hia_C3_amended.2 ⟨some sampleAgent, none, none, none⟩ sampleAgent "q1" "" sentinelHistory
      "q2" "" sentinelHistory rfl (by decide) (by decide) rfl ⟨["BP 140/90"], rfl⟩⟩

/-- C9: when the first rebuild fails and the placeholder retry succeeds, the
cache key is set to 0, not to the placeholder's length; since the indexed
context text is never empty, every subsequent call attempts a rebuild. -/
theorem hia_C9_fallback_key_zero (st : SessionState) (agent : ChatAgent)
    (q t : String) (hist : List ChatMessage) (e : String) (vs : VectorStore)
    (hag : st.chat_agent = some agent)
    (hcond : st.vector_store = none ∨
      st.vector_store_key ≠ some (effectiveContext t hist).length)
    (herr : agent.initialize_vector_store (effectiveContext t hist) = Except.error e)
    (hok : agent.initialize_vector_store noReportPlaceholder = Except.ok vs) :
    (get_chat_response st q t hist).state.vector_store_key = some 0 ∧
    (0 : Nat) ≠ noReportPlaceholder.length ∧
    ∀ (q' t' : String) (h' : List ChatMessage),
      (get_chat_response (get_chat_response st q t hist).state q' t' h').builds ≠ [] := by
  rcases st with ⟨ca, ce, v, k⟩
  cases ca with
  | none => exact Option.noConfusion hag
  | some a =>
    have ha : a = agent := Option.some.inj hag
    subst a
    rw [get_chat_response_some, if_pos hcond, herr, hok]
    refine ⟨rfl, by decide, ?_⟩
    intro q' t' h'
    rw [get_chat_response_some, if_pos]
    · cases hini : agent.initialize_vector_store (effectiveContext t' h') with
      | ok w => simp
      | error e2 =>
        cases hini2 : agent.initialize_vector_store noReportPlaceholder with
        | ok w => simp
        | error e3 => simp
    · right
      intro hk0
      have h0 : (0 : Nat) = (effectiveContext t' h').length := Option.some.inj hk0
      have hpos := string_length_pos (effectiveContext t' h') (effectiveContext_ne_empty t' h')
      omega

theorem hia_C9_witness :
    (get_chat_response ⟨some fallbackOnlyAgent, none, none, none⟩
        "q" "report text" []).state.vector_store_key = some 0 ∧
    (get_chat_response
        (get_chat_response ⟨some fallbackOnlyAgent, none, none, none⟩
          "q" "report text" []).state "q2" "other" []).builds ≠ [] :=
  ⟨(hia_C9_fallback_key_zero ⟨some fallbackOnlyAgent, none, none, none⟩ fallbackOnlyAgent
      "q" "report text" [] "index build failed" [noReportPlaceholder]
      rfl (Or.inl rfl) rfl rfl).1,
   (hia_C9_fallback_key_zero ⟨some fallbackOnlyAgent, none, none, none⟩ fallbackOnlyAgent
      "q" "report text" [] "index build failed" [noReportPlaceholder]
      rfl (Or.inl rfl) rfl rfl).2.2 "q2" "other" []⟩

/-! ### C2: assistant-message fallback takes a prefix, not a suffix -/

/-- A 5001-character assistant answer: an 'a' followed by 5000 'b's. -/
def longContent : String := String.mk ('a' :: List.replicate 5000 'b')

/-- A history entry holding `longContent` as the assistant's message. -/
def longMsg : ChatMessage := ⟨"assistant", longContent⟩

/-- A 101-character assistant message, just over the length threshold. -/
def witnessAssistantMsg : ChatMessage := ⟨"assistant", String.mk (List.replicate 101 'a')⟩

/-- C2 (counterexample): with an empty passed context and a single assistant
message of 5001 characters, the recovered context is the first 5000
characters — which is not a suffix of the message content, refuting the
claim's "size-bounded suffix". -/
theorem hia_C2_counterexample :
    recoverContext "" [longMsg] = String.mk ('a' :: List.replicate 4999 'b') ∧
    ¬ (recoverContext "" [longMsg]).toList <:+ longMsg.content.toList := by
  have hlen : longContent.length = 5001 := by
    show (String.mk ('a' :: List.replicate 5000 'b')).length = 5001
    rw [String.length_mk, List.length_cons, List.length_replicate]
  have hscan : scanSystem [longMsg] = none := by
    simp [scanSystem, longMsg]
  have hfind : findRecentLongAssistant [longMsg] = some longMsg := by
    simp [findRecentLongAssistant, longMsg, hlen]
  have hrec : recoverContext "" [longMsg] = String.mk ('a' :: List.replicate 4999 'b') := by
    have h1 : recoverContext "" [longMsg] = pyTake longMsg.content 5000 := by
      simp [recoverContext, hscan, hfind]
    rw [h1]
    show String.mk (('a' :: List.replicate 5000 'b').take 5000) = _
    rw [show (5000 : Nat) = 4999 + 1 from rfl, List.take_succ_cons, List.take_replicate]
    norm_num
  refine ⟨hrec, ?_⟩
  rw [hrec]
  intro hsuf
  have hsuf' : ('a' :: List.replicate 4999 'b') <:+ ('a' :: List.replicate 5000 'b') := hsuf
  obtain ⟨s, hs⟩ := hsuf'
  have hslen : s.length = 1 := by
    have hl := congrArg List.length hs
    simp only [List.length_append, List.length_cons, List.length_replicate] at hl
    omega
  cases s with
  | nil => simp at hslen
  | cons c s' =>
    have hs' : s' = [] := by
      simpa using hslen
    subst hs'
    rw [List.singleton_append] at hs
    injection hs with h1 h2
    rw [show (5000 : Nat) = 4999 + 1 from rfl, List.replicate_succ] at h2
    injection h2 with h3 _
    exact absurd h3 (by decide)

/-- C2 (amended): when the passed context is empty and the history scan finds
no sentinel-delimited system message, the recovered context is the
size-bounded PREFIX — the first at most 5000 characters — of the content of
the most recent assistant message longer than 100 characters. -/
theorem hia_C2_amended (hist : List ChatMessage) (m : ChatMessage)
    (hne : hist ≠ [])
    (hsys : scanSystem hist = none)
    (hfind : findRecentLongAssistant hist.reverse = some m) :
    recoverContext "" hist = pyTake m.content 5000 ∧
    (recoverContext "" hist).length ≤ 5000 ∧
    (recoverContext "" hist).toList <+: m.content.toList := by
  have hrec : recoverContext "" hist = pyTake m.content 5000 := by
    simp [recoverContext, hsys, hfind, hne]
  refine ⟨hrec, ?_, ?_⟩
  · rw [hrec]
    show (String.mk (m.content.toList.take 5000)).length ≤ 5000
    rw [String.length_mk, List.length_take]
    exact min_le_left _ _
  · rw [hrec]
    show (m.content.toList.take 5000) <+: m.content.toList
    exact List.take_prefix _ _

theorem hia_C2_witness :
    recoverContext "" [witnessAssistantMsg] = pyTake witnessAssistantMsg.content 5000 ∧
    (recoverContext "" [witnessAssistantMsg]).length ≤ 5000 ∧
    (recoverContext "" [witnessAssistantMsg]).toList <+: witnessAssistantMsg.content.toList :=
  hia_C2_amended [witnessAssistantMsg] witnessAssistantMsg (by decide) (by decide) (by decide)

/-! ### C7: sentinel round-trip of the report text protocol -/

/-- The start marker as a character list. -/
def Pmark : List Char := "__REPORT_TEXT__".toList

/-- The end marker (without its leading newline) as a character list. -/
def Emark : List Char := "__END_REPORT_TEXT__".toList

/-- `findSub` at a position witnessing an occurrence. -/
lemma findSub_at_zero (l pat : List Char) (h : pat <+: l) : findSub l pat = some 0 := by
  have hb : pat.isPrefixOf l = true := List.isPrefixOf_iff_prefix.mpr h
  cases l with
  | nil => simp [findSub, hb]
  | cons c t => simp [findSub, hb]

/-- `findSub` returns the first occurrence: matching at `n` with no match at
any earlier position pins the result to `n`. -/
lemma findSub_eq_some_of (l pat : List Char) (n : Nat)
    (hp : pat.isPrefixOf (l.drop n) = true)
    (hmin : ∀ m, m < n → pat.isPrefixOf (l.drop m) = false) :
    findSub l pat = some n := by
  induction l generalizing n with
  | nil =>
    rw [List.drop_nil] at hp
    cases n with
    | zero => simp [findSub, hp]
    | succ m =>
      have h0 := hmin 0 (Nat.succ_pos m)
      rw [List.drop_nil] at h0
      rw [hp] at h0
      exact Bool.noConfusion h0
  | cons c tl ih =>
    cases n with
    | zero =>
      rw [List.drop_zero] at hp
      simp [findSub, hp]
    | succ m =>
      have h0 := hmin 0 (Nat.succ_pos m)
      rw [List.drop_zero] at h0
      have hrec : findSub tl pat = some m := by
        apply ih
        · exact hp
        · exact fun j hj => hmin (j + 1) (Nat.succ_lt_succ hj)
      simp [findSub, h0, hrec]

/-- A failed `findSub` means no position matches. -/
lemma findSub_none_not_prefixOf (l pat : List Char) (h : findSub l pat = none) :
    ∀ m, pat.isPrefixOf (l.drop m) = false := by
  induction l with
  | nil =>
    intro m
    rw [List.drop_nil]
    by_cases hb : pat.isPrefixOf ([] : List Char) = true
    · simp [findSub, hb] at h
    · exact Bool.eq_false_iff.mpr hb
  | cons c tl ih =>
    intro m
    have hb : pat.isPrefixOf (c :: tl) = false := by
      by_contra hbt
      rw [Bool.not_eq_false] at hbt
      simp [findSub, hbt] at h
    have htl : findSub tl pat = none := by
      by_cases hft : findSub tl pat = none
      · exact hft
      · exfalso
        obtain ⟨j, hj⟩ := Option.ne_none_iff_exists'.mp hft
        simp [findSub, hb, hj] at h
    cases m with
    | zero => rw [List.drop_zero]; exact hb
    | succ j => exact ih htl j

/-- A failed `findSub` means the pattern is not an infix. -/
lemma not_infix_of_findSub_none (l pat : List Char) (h : findSub l pat = none) :
    ¬ pat <:+: l := by
  intro hin
  obtain ⟨s, u, hsu⟩ := hin
  have hpre : pat.isPrefixOf (l.drop s.length) = true := by
    apply List.isPrefixOf_iff_prefix.mpr
    rw [← hsu, List.append_assoc, List.drop_left]
    exact List.prefix_append _ _
  rw [findSub_none_not_prefixOf l pat h s.length] at hpre
  exact Bool.noConfusion hpre

/-- A newline-free infix of a list split around one newline lies entirely on
one side of that newline. -/
lemma infix_split (E a b : List Char) (hnl : '\n' ∉ E)
    (h : E <:+: a ++ '\n' :: b) : E <:+: a ∨ E <:+: b := by
  obtain ⟨s, u, hsu⟩ := h
  by_cases h1 : s.length + E.length ≤ a.length
  · left
    have hlen : (s ++ E).length ≤ a.length := by
      rw [List.length_append]; exact h1
    have hL : List.take a.length ((s ++ E) ++ u)
        = (s ++ E) ++ List.take (a.length - (s ++ E).length) u := by
      rw [List.take_append_eq_append_take, List.take_of_length_le hlen]
    have hR : List.take a.length (a ++ '\n' :: b) = a := List.take_left a ('\n' :: b)
    have hA : (s ++ E) ++ List.take (a.length - (s ++ E).length) u = a := by
      rw [← hL, hsu, hR]
    exact ⟨s, List.take (a.length - (s ++ E).length) u, hA⟩
  · by_cases h2 : s.length ≤ a.length
    · exfalso
      push_neg at h1
      have hk : a.length - s.length < E.length := by omega
      have hd1 : List.drop a.length ((s ++ E) ++ u)
          = List.drop (a.length - s.length) E ++ u := by
        rw [List.drop_append_eq_append_drop]
        have hz : a.length - (s ++ E).length = 0 := by
          rw [List.length_append]
          omega
        rw [hz, List.drop_zero, List.drop_append_eq_append_drop,
          List.drop_of_length_le h2, List.nil_append]
      have hd2 : List.drop a.length (a ++ '\n' :: b) = '\n' :: b :=
        List.drop_left a ('\n' :: b)
      have heq : List.drop (a.length - s.length) E ++ u = '\n' :: b := by
        rw [← hd1, hsu, hd2]
      cases hdk : List.drop (a.length - s.length) E with
      | nil =>
        have hlen0 := congrArg List.length hdk
        rw [List.length_drop, List.length_nil] at hlen0
        omega
      | cons c rest =>
        rw [hdk, List.cons_append] at heq
        injection heq with hc _
        have hcmem : c ∈ List.drop (a.length - s.length) E := by
          rw [hdk]
          exact List.mem_cons_self _ _
        rw [hc] at hcmem
        exact hnl (List.mem_of_mem_drop hcmem)
    · right
      push_neg at h2
      have hs1 : List.drop (a.length + 1) ((s ++ E) ++ u)
          = (List.drop (a.length + 1) s ++ E) ++ u := by
        rw [List.drop_append_eq_append_drop, List.drop_append_eq_append_drop]
        have e1 : a.length + 1 - s.length = 0 := by omega
        have e2 : a.length + 1 - (s ++ E).length = 0 := by
          rw [List.length_append]; omega
        rw [e1, e2, List.drop_zero, List.drop_zero]
      have hs2 : List.drop (a.length + 1) (a ++ '\n' :: b) = b := by
        have hsplit : a ++ '\n' :: b = (a ++ ['\n']) ++ b := by simp
        rw [hsplit]
        exact List.drop_left' (by simp)
      have hb2 : (List.drop (a.length + 1) s ++ E) ++ u = b := by
        rw [← hs1, hsu, hs2]
      exact ⟨List.drop (a.length + 1) s, u, hb2⟩

/-- A prefix of `l.drop j` whose window fits inside the first `n` elements is
an infix of `l.take n`. -/
lemma infix_take_of_prefix_drop (E l : List Char) (j n : Nat)
    (h : E <+: l.drop j) (hle : j + E.length <= n) : E <:+: l.take n := by
  obtain ⟨w, hw⟩ := h
  have h1 : List.take (j + E.length) l = List.take j l ++ E := by
    rw [List.take_add]
    congr 1
    rw [← hw, List.take_left]
  have h2 : List.take (j + E.length) l = List.take (j + E.length) (List.take n l) := by
    rw [List.take_take, min_eq_left hle]
  refine ⟨List.take j l, List.drop (j + E.length) (List.take n l), ?_⟩
  calc List.take j l ++ E ++ List.drop (j + E.length) (List.take n l)
      = List.take (j + E.length) l ++ List.drop (j + E.length) (List.take n l) := by
        rw [← h1]
    _ = List.take (j + E.length) (List.take n l)
          ++ List.drop (j + E.length) (List.take n l) := by
        rw [← h2]
    _ = List.take n l := List.take_append_drop _ _

/-- No occurrence of the end marker starts at or before the boundary newline
in `"__REPORT_TEXT__\n" ++ t ++ "\n__END_REPORT_TEXT__"` when `t` does not
contain the marker. -/
lemma no_marker_before (t : List Char) (ht : ¬ Emark <:+: t) (j : Nat)
    (hj : j <= 16 + t.length)
    (hp : Emark <+: (Pmark ++ '\n' :: (t ++ '\n' :: Emark)).drop j) : False := by
  have hPlen : Pmark.length = 15 := by decide
  have hElen : Emark.length = 19 := by decide
  have hnl : '\n' ∉ Emark := by decide
  by_cases hA : j + 19 <= 17 + t.length
  · have hAlen : (Pmark ++ '\n' :: (t ++ ['\n'])).length = 17 + t.length := by
      simp [hPlen]
      omega
    have hsplitL : Pmark ++ '\n' :: (t ++ '\n' :: Emark)
        = (Pmark ++ '\n' :: (t ++ ['\n'])) ++ Emark := by
      simp
    have htake17 : List.take (17 + t.length) (Pmark ++ '\n' :: (t ++ '\n' :: Emark))
        = Pmark ++ '\n' :: (t ++ ['\n']) := by
      rw [hsplitL]
      exact List.take_left' hAlen
    have hinf : Emark <:+: Pmark ++ '\n' :: (t ++ ['\n']) := by
      rw [← htake17]
      exact infix_take_of_prefix_drop Emark _ j (17 + t.length) hp (by rw [hElen]; exact hA)
    rcases infix_split Emark Pmark (t ++ ['\n']) hnl hinf with hPm | hrest
    · have := List.IsInfix.length_le hPm
      rw [hElen, hPlen] at this
      omega
    · have hconv : t ++ ['\n'] = t ++ '\n' :: [] := rfl
      rw [hconv] at hrest
      rcases infix_split Emark t [] hnl hrest with hT | hnil
      · exact ht hT
      · have := List.IsInfix.length_le hnil
        rw [hElen] at this
        simp at this
  · push_neg at hA
    have hEtake : Emark
        = List.take 19 ((Pmark ++ '\n' :: (t ++ '\n' :: Emark)).drop j) := by
      rw [← hElen]
      exact List.prefix_iff_eq_take.mp hp
    have hlen2 : (Pmark ++ '\n' :: t).length = 16 + t.length := by
      simp [hPlen]
      omega
    have hsplit2 : Pmark ++ '\n' :: (t ++ '\n' :: Emark)
        = (Pmark ++ '\n' :: t) ++ '\n' :: Emark := by
      simp
    have hdj : (Pmark ++ '\n' :: (t ++ '\n' :: Emark)).drop j
        = List.drop j (Pmark ++ '\n' :: t) ++ '\n' :: Emark := by
      rw [hsplit2, List.drop_append_eq_append_drop]
      have hz : j - (Pmark ++ '\n' :: t).length = 0 := by
        rw [hlen2]
        omega
      rw [hz, List.drop_zero]
    have hdjlen : (List.drop j (Pmark ++ '\n' :: t)).length = 16 + t.length - j := by
      rw [List.length_drop, hlen2]
    have htk : List.take 19 ((Pmark ++ '\n' :: (t ++ '\n' :: Emark)).drop j)
        = List.drop j (Pmark ++ '\n' :: t)
            ++ List.take (19 - (16 + t.length - j)) ('\n' :: Emark) := by
      rw [hdj, List.take_append_eq_append_take,
        List.take_of_length_le (by rw [hdjlen]; omega), hdjlen]
    obtain ⟨m, hm⟩ : ∃ m, 19 - (16 + t.length - j) = m + 1 :=
      ⟨19 - (16 + t.length - j) - 1, by omega⟩
    have hmem : '\n' ∈ List.take 19 ((Pmark ++ '\n' :: (t ++ '\n' :: Emark)).drop j) := by
      rw [htk, hm, List.take_succ_cons]
      exact List.mem_append_right _ (List.mem_cons_self _ _)
    rw [← hEtake] at hmem
    exact hnl hmem

/-- The first occurrence of `"\n__END_REPORT_TEXT__"` in the sentinel block
around a marker-free `t` is exactly at the boundary, index `16 + t.length`. -/
lemma findSub_end (t : List Char) (ht : ¬ Emark <:+: t) :
    findSub (Pmark ++ '\n' :: (t ++ '\n' :: Emark)) ('\n' :: Emark)
      = some (16 + t.length) := by
  apply findSub_eq_some_of
  · apply List.isPrefixOf_iff_prefix.mpr
    have hsplit2 : Pmark ++ '\n' :: (t ++ '\n' :: Emark)
        = (Pmark ++ '\n' :: t) ++ '\n' :: Emark := by
      simp
    have hlen2 : (Pmark ++ '\n' :: t).length = 16 + t.length := by
      have : Pmark.length = 15 := by decide
      simp [this]
      omega
    rw [hsplit2, List.drop_left' hlen2]
  · intro m hm
    by_contra hbt
    rw [Bool.not_eq_false] at hbt
    have hp : ('\n' :: Emark) <+: (Pmark ++ '\n' :: (t ++ '\n' :: Emark)).drop m :=
      List.isPrefixOf_iff_prefix.mp hbt
    obtain ⟨w, hw⟩ := hp
    have hd : (Pmark ++ '\n' :: (t ++ '\n' :: Emark)).drop (m + 1) = Emark ++ w := by
      have h1 : (Pmark ++ '\n' :: (t ++ '\n' :: Emark)).drop (m + 1)
          = ((Pmark ++ '\n' :: (t ++ '\n' :: Emark)).drop m).drop 1 :=
        (List.drop_drop 1 m _).symm
      rw [h1, ← hw]
      rfl
    have hpre2 : Emark <+: (Pmark ++ '\n' :: (t ++ '\n' :: Emark)).drop (m + 1) := by
      rw [hd]
      exact List.prefix_append _ _
    exact no_marker_before t ht (m + 1) (by omega) hpre2

/-- Evaluation of `extractReport` when the start marker is found at 0 and the
end marker at `16 + n` with `n ≥ 1`. -/
lemma extractReport_eq (content : String) (n : Nat)
    (h1 : pyFind content reportStartNl = 0)
    (h2 : pyFind content reportEnd = ((16 + n : Nat) : Int))
    (hn : 1 ≤ n) :
    extractReport content = some (pySlice content 16 (16 + n)) := by
  simp only [extractReport, h1, h2]
  split
  case isTrue hcond =>
    have e1 : ((0 : Int) + (reportStartNl.length : Int)).toNat = 16 := by decide
    have e2 : ((16 + n : Nat) : Int).toNat = 16 + n := Int.toNat_natCast _
    rw [e1, e2]
  case isFalse hcond =>
    exfalso
    apply hcond
    constructor
    · decide
    · have h16i : (reportStartNl.length : Int) = 16 := by decide
      rw [h16i]
      push_cast
      omega

/-- C7 (amended): for every non-empty report text containing neither marker,
a system message whose content is exactly the sentinel block recovers exactly
that text, both through `extractReport` and through the history scan. -/
theorem hia_C7_sentinel_roundtrip (text : String)
    (htext : text ≠ "")
    (_hnostart : strContains text reportStart = false)
    (hnoend : strContains text "__END_REPORT_TEXT__" = false) :
    extractReport ("__REPORT_TEXT__\n" ++ text ++ "\n__END_REPORT_TEXT__") = some text ∧
    scanSystem [⟨"system", "__REPORT_TEXT__\n" ++ text ++ "\n__END_REPORT_TEXT__"⟩]
      = some text := by
  have hcl : ("__REPORT_TEXT__\n" ++ text ++ "\n__END_REPORT_TEXT__").toList
      = Pmark ++ '\n' :: (text.toList ++ '\n' :: Emark) := by
    have h1 : ("__REPORT_TEXT__\n" ++ text ++ "\n__END_REPORT_TEXT__").toList
        = ("__REPORT_TEXT__\n".toList ++ text.toList) ++ "\n__END_REPORT_TEXT__".toList :=
      rfl
    rw [h1, show "__REPORT_TEXT__\n".toList = Pmark ++ ['\n'] from rfl,
      show "\n__END_REPORT_TEXT__".toList = '\n' :: Emark from rfl]
    simp
  have hT : ¬ Emark <:+: text.toList := by
    apply not_infix_of_findSub_none
    have hiso : (findSub text.toList Emark).isSome = false := hnoend
    cases hfs : findSub text.toList Emark with
    | none => rfl
    | some v =>
      rw [hfs] at hiso
      exact Bool.noConfusion hiso
  have htlen : 1 ≤ text.toList.length :=
    List.length_pos.mpr (string_toList_ne_nil text htext)
  have hend : findSub ("__REPORT_TEXT__\n" ++ text ++ "\n__END_REPORT_TEXT__").toList
      reportEnd.toList = some (16 + text.toList.length) := by
    rw [hcl, show reportEnd.toList = '\n' :: Emark from rfl]
    exact findSub_end text.toList hT
  have hstart : findSub ("__REPORT_TEXT__\n" ++ text ++ "\n__END_REPORT_TEXT__").toList
      reportStartNl.toList = some 0 := by
    apply findSub_at_zero
    rw [hcl, show reportStartNl.toList = Pmark ++ ['\n'] from rfl,
      show Pmark ++ '\n' :: (text.toList ++ '\n' :: Emark)
        = (Pmark ++ ['\n']) ++ (text.toList ++ '\n' :: Emark) from by simp]
    exact List.prefix_append _ _
  have hpf1 : pyFind ("__REPORT_TEXT__\n" ++ text ++ "\n__END_REPORT_TEXT__")
      reportStartNl = 0 := by
    unfold pyFind
    rw [hstart]
    rfl
  have hpf2 : pyFind ("__REPORT_TEXT__\n" ++ text ++ "\n__END_REPORT_TEXT__")
      reportEnd = ((16 + text.toList.length : Nat) : Int) := by
    unfold pyFind
    rw [hend]
  have hdrop16 : ("__REPORT_TEXT__\n" ++ text ++ "\n__END_REPORT_TEXT__").toList.drop 16
      = text.toList ++ '\n' :: Emark := by
    rw [hcl, show Pmark ++ '\n' :: (text.toList ++ '\n' :: Emark)
      = (Pmark ++ ['\n']) ++ (text.toList ++ '\n' :: Emark) from by simp]
    exact List.drop_left' (by decide)
  have hslice : pySlice ("__REPORT_TEXT__\n" ++ text ++ "\n__END_REPORT_TEXT__")
      16 (16 + text.toList.length) = text := by
    unfold pySlice
    rw [hdrop16]
    have harith : 16 + text.toList.length - 16 = text.toList.length := by omega
    rw [harith, List.take_left]
    rfl
  have hex : extractReport ("__REPORT_TEXT__\n" ++ text ++ "\n__END_REPORT_TEXT__")
      = some text := by
    rw [extractReport_eq _ _ hpf1 hpf2 htlen, hslice]
  refine ⟨hex, ?_⟩
  have hcontains : strContains ("__REPORT_TEXT__\n" ++ text ++ "\n__END_REPORT_TEXT__")
      reportStart = true := by
    unfold strContains
    rw [findSub_at_zero]
    · rfl
    · rw [hcl]
      show Pmark <+: Pmark ++ ('\n' :: (text.toList ++ '\n' :: Emark))
      exact List.prefix_append _ _
  simp only [scanSystem]
  rw [if_pos ⟨trivial, hcontains⟩, hex]

/-- C7 (counterexample): for the empty report text the embedded block is
`"__REPORT_TEXT__\n\n__END_REPORT_TEXT__"`, the end-marker index equals the
start index, the strict comparison fails, and nothing is recovered — the
claimed round-trip fails at `text = ""`. -/
theorem hia_C7_counterexample :
    extractReport ("__REPORT_TEXT__\n" ++ "" ++ "\n__END_REPORT_TEXT__") = none ∧
    scanSystem [⟨"system", "__REPORT_TEXT__\n" ++ "" ++ "\n__END_REPORT_TEXT__"⟩]
      ≠ some "" := by
  refine ⟨?_, ?_⟩ <;> decide

theorem hia_C7_witness :
    extractReport ("__REPORT_TEXT__\n" ++ "Patient BP 140/90." ++ "\n__END_REPORT_TEXT__")
      = some "Patient BP 140/90." ∧
    scanSystem [⟨"system",
        "__REPORT_TEXT__\n" ++ "Patient BP 140/90." ++ "\n__END_REPORT_TEXT__"⟩]
      = some "Patient BP 140/90." :=
  hia_C7_sentinel_roundtrip "Patient BP 140/90." (by decide) (by decide) (by decide)
